import Mathlib

/-!
# Verification of the 3-tier CRUD backend (`src/main.py`)

Shallow embedding of the data-access and API contract layer of the
application: the persisted entity `SimpleData`, the request/response
models, and the three route handlers `create_data_entry`,
`read_data_entries` and `delete_data_entry`.

Modelling choices:
* The database is a `DBState`: the table rows in insertion order, the
  next auto-assigned primary key (`nextId`, a serial starting at 1) and
  the server clock `now` (a `Nat` timestamp; the store's `now()` used as
  the `created_at` server default).  The clock advances after each
  committed insert, so successive commits get strictly increasing
  timestamps.
* Whether a transaction commit succeeds is an environment input, passed
  to each writing handler as a `commitOk : Bool` argument; `false`
  triggers the handler's `except` branch (rollback + HTTP 500).
* `HTTPException` raised by a handler aborts it: handlers return
  `Except HTTPException α` (payload) together with the resulting
  `DBState`.
* The `content` column is declared without `nullable=False`, so the row
  type carries `Option String`; the create handler always stores
  `some content` since the request model `DataItemCreate` requires a
  string.
* The query chain `order_by(created_at.desc()).offset(skip).limit(limit)`
  is embedded as a stable sort by descending `created_at` followed by
  `drop`/`take`.  `skip`/`limit` are Python ints (`Int` here); the store
  semantics for negative values is modelled from the spec: no error for
  out-of-range values (negative values are clamped to 0).
-/

/-- The persisted entity (ORM model `SimpleData`, table `simple_data`):
`id` integer primary key, `content` nullable text, `created_at`
timestamp with a server-side default of the current time. -/
structure SimpleData where
  id : Nat
  content : Option String
  created_at : Nat
deriving Repr, DecidableEq

/-- Request body model for the create endpoint: `content` is required. -/
structure DataItemCreate where
  content : String
deriving Repr, DecidableEq

/-- Response model `DataItem`: all three fields present and non-null. -/
structure DataItem where
  id : Nat
  content : String
  created_at : Nat
deriving Repr, DecidableEq

/-- FastAPI `HTTPException`: a status code and a detail message. -/
structure HTTPException where
  status_code : Nat
  detail : String
deriving Repr, DecidableEq

/-- The database state: rows in insertion order, the next serial primary
key value, and the store's clock. -/
structure DBState where
  rows : List SimpleData
  nextId : Nat
  now : Nat
deriving Repr, DecidableEq

/-- Serialization of a row through the `DataItem` response model
(`from_attributes`): succeeds exactly when every field is non-null. -/
def serialize (r : SimpleData) : Option DataItem :=
  match r.content with
  | some c => some { id := r.id, content := c, created_at := r.created_at }
  | none => none

/-- HTTP status of a handler outcome: 200 on a normal return, otherwise
the raised exception's status code. -/
def statusOf {α : Type} : Except HTTPException α → Nat
  | Except.ok _ => 200
  | Except.error e => e.status_code

/-- The ordering used by `order_by(SimpleData.created_at.desc())`:
`a` comes no later than `b` when `a.created_at ≥ b.created_at`. -/
def descByCreated (a b : SimpleData) : Prop :=
  b.created_at ≤ a.created_at

instance : DecidableRel descByCreated :=
  fun a b => Nat.decLe b.created_at a.created_at

instance : IsTotal SimpleData descByCreated :=
  ⟨fun a b => by unfold descByCreated; exact Nat.le_total _ _⟩

instance : IsTrans SimpleData descByCreated :=
  ⟨fun _ _ _ hab hbc => Nat.le_trans hbc hab⟩

/-- `db.query(SimpleData).order_by(SimpleData.created_at.desc())`:
the rows sorted by `created_at` descending (stable). -/
def queryDesc (rows : List SimpleData) : List SimpleData :=
  List.insertionSort descByCreated rows

/-- `POST /api/data` handler `create_data_entry`: build a row from the
request's `content`, add and commit it; on success the store assigns
`id := nextId` and `created_at := now()` (`db.refresh`) and the full row
is returned; on commit failure roll back and raise a generic 500. -/
def create_data_entry (item : DataItemCreate) (commitOk : Bool)
    (db : DBState) : Except HTTPException SimpleData × DBState :=
  let db_entry : SimpleData :=
    { id := db.nextId, content := some item.content, created_at := db.now }
  if commitOk then
    (Except.ok db_entry,
      { rows := db.rows ++ [db_entry], nextId := db.nextId + 1,
        now := db.now + 1 })
  else
    (Except.error { status_code := 500, detail := "데이터베이스 저장에 실패했습니다." }, db)

/-- `GET /api/data` handler `read_data_entries`: return the rows ordered
by `created_at` descending, after `offset(skip)` and `limit(limit)`
(defaults `skip = 0`, `limit = 100`). -/
def read_data_entries (db : DBState) (skip : Int := 0)
    (limit : Int := 100) : Except HTTPException (List SimpleData) × DBState :=
  let entries := ((queryDesc db.rows).drop skip.toNat).take limit.toNat
  (Except.ok entries, db)

/-- `DELETE /api/data/item_id` handler `delete_data_entry`: look up the
first row whose `id` equals the path parameter; raise 404 if absent;
otherwise delete it and commit, answering with a confirmation message
naming the id, or roll back and raise a generic 500 on commit failure. -/
def delete_data_entry (item_id : Int) (commitOk : Bool)
    (db : DBState) : Except HTTPException String × DBState :=
  match db.rows.find? (fun r => (r.id : Int) == item_id) with
  | none =>
    (Except.error { status_code := 404, detail := "해당 ID의 데이터를 찾을 수 없습니다." }, db)
  | some db_entry =>
    if commitOk then
      (Except.ok ("데이터(ID: " ++ toString item_id ++
          ")가 성공적으로 삭제되었습니다."),
        { db with rows := db.rows.filter (fun r => r.id != db_entry.id) })
    else
      (Except.error { status_code := 500, detail := "데이터베이스 삭제에 실패했습니다." }, db)

/-- Well-formedness of a database state: the serial counter is at least 1,
every row has a positive `id` below the counter, a non-null `content`
and a timestamp in the past, and rows are strictly increasing in both
`id` and `created_at` along insertion order. -/
def WF (db : DBState) : Prop :=
  1 ≤ db.nextId ∧
  (∀ r ∈ db.rows,
    1 ≤ r.id ∧ r.id < db.nextId ∧ r.content.isSome ∧ r.created_at < db.now) ∧
  db.rows.Pairwise (fun a b => a.id < b.id ∧ a.created_at < b.created_at)

instance : DecidablePred WF := fun db => by
  unfold WF; infer_instance

/-- States reachable from an empty table through the three handlers. -/
inductive Reachable : DBState → Prop where
  | init : ∀ t, Reachable { rows := [], nextId := 1, now := t }
  | create : ∀ db item ok, Reachable db →
      Reachable (create_data_entry item ok db).2
  | list : ∀ db skip limit, Reachable db →
      Reachable (read_data_entries db skip limit).2
  | delete : ∀ db i ok, Reachable db →
      Reachable (delete_data_entry i ok db).2

/-! ## Helper lemmas -/

theorem orderedInsert_append_of_lt (x : SimpleData) :
    ∀ l : List SimpleData, (∀ y ∈ l, x.created_at < y.created_at) →
      List.orderedInsert descByCreated x l = l ++ [x] := by
  intro l
  induction l with
  | nil => intro _; rfl
  | cons y ys ih =>
    intro h
    have hy : x.created_at < y.created_at := h y (List.mem_cons_self y ys)
    have hnot : ¬ descByCreated x y := by
      unfold descByCreated; omega
    simp only [List.orderedInsert, if_neg hnot, List.cons_append,
      List.cons.injEq, true_and]
    exact ih (fun z hz => h z (List.mem_cons_of_mem y hz))

theorem queryDesc_eq_reverse (rows : List SimpleData)
    (h : rows.Pairwise (fun a b => a.created_at < b.created_at)) :
    queryDesc rows = rows.reverse := by
  induction rows with
  | nil => rfl
  | cons x xs ih =>
    rcases List.pairwise_cons.mp h with ⟨hx, hxs⟩
    have : queryDesc (x :: xs) =
        List.orderedInsert descByCreated x (queryDesc xs) := rfl
    rw [this, ih hxs, orderedInsert_append_of_lt x xs.reverse
      (fun y hy => hx y (List.mem_reverse.mp hy)), List.reverse_cons]

theorem WF.pairwise_created {db : DBState} (hwf : WF db) :
    db.rows.Pairwise (fun a b => a.created_at < b.created_at) :=
  hwf.2.2.imp (fun h => h.2)

theorem read_payload_eq {db : DBState} (hwf : WF db) (skip limit : Int) :
    (read_data_entries db skip limit).1 =
      Except.ok ((db.rows.reverse.drop skip.toNat).take limit.toNat) := by
  unfold read_data_entries
  rw [queryDesc_eq_reverse db.rows hwf.pairwise_created]

theorem create_WF {db : DBState} (item : DataItemCreate) (ok : Bool)
    (hwf : WF db) : WF (create_data_entry item ok db).2 := by
  cases ok with
  | false => exact hwf
  | true =>
    obtain ⟨h1, h2, h3⟩ := hwf
    refine ⟨Nat.le_succ_of_le h1, ?_, ?_⟩
    · intro r hr
      rcases List.mem_append.mp hr with hold | hnew
      · obtain ⟨a, b, c, d⟩ := h2 r hold
        exact ⟨a, Nat.lt_succ_of_lt b, c, Nat.lt_succ_of_lt d⟩
      · rcases List.mem_singleton.mp hnew with rfl
        exact ⟨h1, Nat.lt_succ_self _, rfl, Nat.lt_succ_self _⟩
    · refine List.pairwise_append.mpr ⟨h3, List.pairwise_singleton _ _, ?_⟩
      intro a ha b hb
      rcases List.mem_singleton.mp hb with rfl
      obtain ⟨_, hid, _, hct⟩ := h2 a ha
      exact ⟨hid, hct⟩

theorem delete_WF {db : DBState} (i : Int) (ok : Bool)
    (hwf : WF db) : WF (delete_data_entry i ok db).2 := by
  unfold delete_data_entry
  cases hfind : db.rows.find? (fun r => (r.id : Int) == i) with
  | none => exact hwf
  | some e =>
    cases ok with
    | false => exact hwf
    | true =>
      obtain ⟨h1, h2, h3⟩ := hwf
      refine ⟨h1, ?_, ?_⟩
      · intro r hr
        exact h2 r (List.mem_of_mem_filter hr)
      · exact h3.sublist (List.filter_sublist _)

theorem reachable_WF {db : DBState} (h : Reachable db) : WF db := by
  induction h with
  | init t => exact ⟨Nat.le_refl 1, by simp, List.Pairwise.nil⟩
  | create db item ok _ ih => exact create_WF item ok ih
  | list db skip limit _ ih => exact ih
  | delete db i ok _ ih => exact delete_WF i ok ih

theorem queryDesc_perm (rows : List SimpleData) :
    List.Perm (queryDesc rows) rows :=
  List.perm_insertionSort descByCreated rows

theorem queryDesc_sorted (rows : List SimpleData) :
    (queryDesc rows).Sorted descByCreated :=
  List.sorted_insertionSort descByCreated rows

/-! ## Claim theorems -/

/-- C1: for every create request with body `{content := s}`, if the
storage commit succeeds, `create_data_entry` responds HTTP 200 with the
fully populated record: its `content` is `s` and its `id` and
`created_at` are the store-assigned values (the serial `nextId` and the
commit-time clock), the row being appended to the table; the record
serializes completely through the `DataItem` response model. -/
theorem create_returns_full_record (s : String) (db : DBState) :
    create_data_entry { content := s } true db =
      (Except.ok { id := db.nextId, content := some s, created_at := db.now },
        { rows := db.rows ++
            [{ id := db.nextId, content := some s, created_at := db.now }],
          nextId := db.nextId + 1, now := db.now + 1 }) ∧
    statusOf (create_data_entry { content := s } true db).1 = 200 ∧
    serialize { id := db.nextId, content := some s, created_at := db.now } =
      some { id := db.nextId, content := s, created_at := db.now } :=
  ⟨rfl, rfl, rfl⟩

/-- C5: deleting an id that no stored row carries responds HTTP 404 with
the fixed "not found" message and leaves the database state unchanged. -/
theorem delete_absent_404 (db : DBState) (item_id : Int) (ok : Bool)
    (habs : ∀ r ∈ db.rows, (r.id : Int) ≠ item_id) :
    delete_data_entry item_id ok db =
      (Except.error { status_code := 404, detail := "해당 ID의 데이터를 찾을 수 없습니다." },
        db) ∧
    statusOf (delete_data_entry item_id ok db).1 = 404 ∧
    (delete_data_entry item_id ok db).2.rows = db.rows := by
  have hfind : db.rows.find? (fun r => (r.id : Int) == item_id) = none := by
    rw [List.find?_eq_none]
    intro r hr
    simpa using habs r hr
  unfold delete_data_entry
  rw [hfind]
  exact ⟨rfl, rfl, rfl⟩

theorem delete_absent_404_witness :
    delete_data_entry 42 false { rows := [], nextId := 1, now := 0 } =
      (Except.error { status_code := 404, detail := "해당 ID의 데이터를 찾을 수 없습니다." },
        { rows := [], nextId := 1, now := 0 }) :=
  (delete_absent_404 { rows := [], nextId := 1, now := 0 } 42 false
    (by intro r hr; cases hr)).1

/-- C6: when the storage commit fails, both writing handlers roll back
(the database state is returned unchanged) and raise HTTP 500 with a
fixed generic failure message that carries no internal error detail;
for every create request this holds outright, and for every delete
request whose commit is reached (its id is present in the store). -/
theorem commit_failure_rollback_500 (db : DBState) (item : DataItemCreate)
    (item_id : Int) :
    create_data_entry item false db =
      (Except.error { status_code := 500, detail := "데이터베이스 저장에 실패했습니다." },
        db) ∧
    statusOf (create_data_entry item false db).1 = 500 ∧
    ((∃ r ∈ db.rows, (r.id : Int) = item_id) →
      delete_data_entry item_id false db =
        (Except.error { status_code := 500, detail := "데이터베이스 삭제에 실패했습니다." },
          db) ∧
      statusOf (delete_data_entry item_id false db).1 = 500) := by
  refine ⟨rfl, rfl, ?_⟩
  intro hmem
  have hsome : (db.rows.find? (fun r => (r.id : Int) == item_id)).isSome := by
    rw [List.find?_isSome]
    obtain ⟨r, hr, he⟩ := hmem
    exact ⟨r, hr, by simpa using he⟩
  obtain ⟨e, he⟩ := Option.isSome_iff_exists.mp hsome
  unfold delete_data_entry
  rw [he]
  exact ⟨rfl, rfl⟩

theorem commit_failure_rollback_500_witness :
    create_data_entry { content := "x" } false
        { rows := [], nextId := 1, now := 0 } =
      (Except.error { status_code := 500, detail := "데이터베이스 저장에 실패했습니다." },
        { rows := [], nextId := 1, now := 0 }) ∧
    delete_data_entry 1 false
        { rows := [{ id := 1, content := some "a", created_at := 0 }],
          nextId := 2, now := 1 } =
      (Except.error { status_code := 500, detail := "데이터베이스 삭제에 실패했습니다." },
        { rows := [{ id := 1, content := some "a", created_at := 0 }],
          nextId := 2, now := 1 }) :=
  ⟨(commit_failure_rollback_500 { rows := [], nextId := 1, now := 0 }
      { content := "x" } 1).1,
    ((commit_failure_rollback_500
      { rows := [{ id := 1, content := some "a", created_at := 0 }],
        nextId := 2, now := 1 } { content := "x" } 1).2.2
      ⟨{ id := 1, content := some "a", created_at := 0 }, by simp, by simp⟩).1⟩

/-- C7: for all integer `skip` and `limit` values, including negative
ones, `read_data_entries` never errors: it answers HTTP 200 with the
sorted window of the table, and the window is empty when the table is
empty or `skip` is at least the number of stored rows. -/
theorem list_never_errors (db : DBState) (skip limit : Int) :
    statusOf (read_data_entries db skip limit).1 = 200 ∧
    (read_data_entries db skip limit).1 =
      Except.ok (((queryDesc db.rows).drop skip.toNat).take limit.toNat) ∧
    (db.rows = [] → (read_data_entries db skip limit).1 = Except.ok []) ∧
    ((db.rows.length : Int) ≤ skip →
      (read_data_entries db skip limit).1 = Except.ok []) := by
  refine ⟨rfl, rfl, ?_, ?_⟩
  · intro h
    simp [read_data_entries, queryDesc, h]
  · intro h
    have hdrop : (queryDesc db.rows).drop skip.toNat = [] := by
      apply List.drop_eq_nil_of_le
      rw [(queryDesc_perm db.rows).length_eq]
      omega
    simp [read_data_entries, hdrop]

theorem list_never_errors_witness :
    statusOf (read_data_entries { rows := [], nextId := 1, now := 0 }
      (-5) (-7)).1 = 200 :=
  (list_never_errors { rows := [], nextId := 1, now := 0 } (-5) (-7)).1

/-- C10: `read_data_entries` only queries: for every state and every
`skip`/`limit`, the database state after listing is exactly the state
before, and in particular the stored rows are identical. -/
theorem list_preserves_state (db : DBState) (skip limit : Int) :
    (read_data_entries db skip limit).2 = db ∧
    (read_data_entries db skip limit).2.rows = db.rows :=
  ⟨rfl, rfl⟩

/-- Shorthand for a fully populated stored row. -/
def mkRow (i : Nat) (s : String) (t : Nat) : SimpleData :=
  { id := i, content := some s, created_at := t }

theorem reverse_append_singleton (l : List SimpleData) (a : SimpleData) :
    (l ++ [a]).reverse = a :: l.reverse := by
  simp

theorem reverse_append_pair (l : List SimpleData) (a b : SimpleData) :
    ((l ++ [a]) ++ [b]).reverse = b :: a :: l.reverse := by
  simp

theorem reverse_append_triple (l : List SimpleData) (a b c : SimpleData) :
    (((l ++ [a]) ++ [b]) ++ [c]).reverse = c :: b :: a :: l.reverse := by
  simp

/-- C2: the listing is ordered by `created_at` descending: every
returned window is sorted under `descByCreated` and is a window of a
permutation of the stored rows; and after creating record A and then
record B, listing with the default parameters returns B (position 0)
before A (position 1). -/
theorem list_ordered_desc (db : DBState) (skip limit : Int) (sA sB : String)
    (hwf : WF db) :
    (∃ es, (read_data_entries db skip limit).1 = Except.ok es ∧
      es.Sorted descByCreated ∧ es.Sublist (queryDesc db.rows) ∧
      List.Perm (queryDesc db.rows) db.rows) ∧
    (∃ es, (read_data_entries
        (create_data_entry { content := sB } true
          (create_data_entry { content := sA } true db).2).2).1 =
          Except.ok es ∧
      es.head? = some (mkRow (db.nextId + 1) sB (db.now + 1)) ∧
      es[1]? = some (mkRow db.nextId sA db.now)) := by
  constructor
  · exact ⟨((queryDesc db.rows).drop skip.toNat).take limit.toNat, rfl,
      List.Pairwise.sublist
        ((List.take_sublist _ _).trans (List.drop_sublist _ _))
        (queryDesc_sorted db.rows),
      (List.take_sublist _ _).trans (List.drop_sublist _ _),
      queryDesc_perm db.rows⟩
  · have hwf2 : WF (create_data_entry { content := sB } true
        (create_data_entry { content := sA } true db).2).2 :=
      create_WF _ true (create_WF _ true hwf)
    refine ⟨_, read_payload_eq hwf2 0 100, ?_, ?_⟩
    all_goals
      rw [show ((create_data_entry { content := sB } true
            (create_data_entry { content := sA } true db).2).2).rows =
          (db.rows ++ [mkRow db.nextId sA db.now]) ++
            [mkRow (db.nextId + 1) sB (db.now + 1)] from rfl,
        reverse_append_pair,
        show ∀ l : List SimpleData, ∀ x y : SimpleData,
          ((x :: y :: l).drop (0 : Int).toNat).take (100 : Int).toNat =
            x :: y :: l.take 98 from fun _ _ _ => rfl]
      simp

/-- C3: `read_data_entries` defaults to `skip = 0`, `limit = 100`; for
every non-negative `skip` and positive `limit` it answers the
descending-ordered sequence with the first `skip` records dropped and
at most `limit` records kept; and after creating three records,
listing with `skip = 1`, `limit = 1` returns exactly the second-newest
record. -/
theorem list_pagination (db : DBState) (skip limit : Int)
    (s1 s2 s3 : String) (hwf : WF db) (_hskip : 0 ≤ skip)
    (_hlimit : 0 < limit) :
    read_data_entries db = read_data_entries db 0 100 ∧
    (read_data_entries db skip limit).1 =
      Except.ok (((queryDesc db.rows).drop skip.toNat).take limit.toNat) ∧
    (((queryDesc db.rows).drop skip.toNat).take limit.toNat).length ≤
      limit.toNat ∧
    (read_data_entries
        (create_data_entry { content := s3 } true
          (create_data_entry { content := s2 } true
            (create_data_entry { content := s1 } true db).2).2).2 1 1).1 =
      Except.ok [mkRow (db.nextId + 1) s2 (db.now + 1)] := by
  refine ⟨rfl, rfl, List.length_take_le _ _, ?_⟩
  have hwf3 : WF (create_data_entry { content := s3 } true
      (create_data_entry { content := s2 } true
        (create_data_entry { content := s1 } true db).2).2).2 :=
    create_WF _ true (create_WF _ true (create_WF _ true hwf))
  rw [read_payload_eq hwf3 1 1,
    show ((create_data_entry { content := s3 } true
        (create_data_entry { content := s2 } true
          (create_data_entry { content := s1 } true db).2).2).2).rows =
      ((db.rows ++ [mkRow db.nextId s1 db.now]) ++
        [mkRow (db.nextId + 1) s2 (db.now + 1)]) ++
        [mkRow (db.nextId + 1 + 1) s3 (db.now + 1 + 1)] from rfl,
    reverse_append_triple]
  rfl

/-- C9: round-trip: creating a record with content `s` (commit
succeeding) answers that very record, and a subsequent default listing
returns first a record whose `content` is exactly `s`, whose `id` is a
positive integer, and whose `created_at` is not earlier than the clock
at the time of the create call. -/
theorem create_list_roundtrip (db : DBState) (s : String) (hwf : WF db) :
    (create_data_entry { content := s } true db).1 =
      Except.ok (mkRow db.nextId s db.now) ∧
    ∃ es r, (read_data_entries
        (create_data_entry { content := s } true db).2).1 = Except.ok es ∧
      es.head? = some r ∧ r.content = some s ∧ 1 ≤ r.id ∧
      db.now ≤ r.created_at := by
  refine ⟨rfl, ?_⟩
  have hwf1 : WF (create_data_entry { content := s } true db).2 :=
    create_WF _ true hwf
  refine ⟨_, mkRow db.nextId s db.now,
    read_payload_eq hwf1 0 100, ?_, rfl, hwf.1, Nat.le_refl _⟩
  rw [show ((create_data_entry { content := s } true db).2).rows =
      db.rows ++ [mkRow db.nextId s db.now] from rfl,
    reverse_append_singleton]
  rfl

/-- C4: deleting an id that some stored row carries (commit succeeding)
responds HTTP 200 with a confirmation message that contains the id, and
every row carrying that id is removed while all other rows are kept, so
a subsequent listing no longer contains it. -/
theorem delete_found_removes (db : DBState) (item_id : Int)
    (hmem : ∃ r ∈ db.rows, (r.id : Int) = item_id) :
    (delete_data_entry item_id true db).1 =
      Except.ok ("데이터(ID: " ++ toString item_id ++
        ")가 성공적으로 삭제되었습니다.") ∧
    statusOf (delete_data_entry item_id true db).1 = 200 ∧
    (∃ pre post, (delete_data_entry item_id true db).1 =
      Except.ok (pre ++ toString item_id ++ post)) ∧
    (∀ r ∈ (delete_data_entry item_id true db).2.rows,
      (r.id : Int) ≠ item_id) ∧
    (delete_data_entry item_id true db).2.rows.Sublist db.rows ∧
    (∀ r ∈ db.rows, (r.id : Int) ≠ item_id →
      r ∈ (delete_data_entry item_id true db).2.rows) ∧
    (∀ skip limit es,
      (read_data_entries (delete_data_entry item_id true db).2
        skip limit).1 = Except.ok es →
      ∀ r ∈ es, (r.id : Int) ≠ item_id) := by
  have hsome : (db.rows.find? (fun r => (r.id : Int) == item_id)).isSome := by
    rw [List.find?_isSome]
    obtain ⟨r, hr, he⟩ := hmem
    exact ⟨r, hr, by simpa using he⟩
  obtain ⟨e, he⟩ := Option.isSome_iff_exists.mp hsome
  have heid : (e.id : Int) = item_id := by
    simpa using List.find?_some he
  have hres : delete_data_entry item_id true db =
      (Except.ok ("데이터(ID: " ++ toString item_id ++
        ")가 성공적으로 삭제되었습니다."),
        { db with rows := db.rows.filter (fun r => r.id != e.id) }) := by
    unfold delete_data_entry
    rw [he]
    rfl
  rw [hres]
  refine ⟨rfl, rfl,
    ⟨"데이터(ID: ", ")가 성공적으로 삭제되었습니다.", rfl⟩, ?_, ?_, ?_, ?_⟩
  · intro r hr hcontra
    have hne : (r.id != e.id) = true := (List.mem_filter.mp hr).2
    have : r.id ≠ e.id := by simpa using hne
    apply this
    omega
  · exact List.filter_sublist _
  · intro r hr hne
    refine List.mem_filter.mpr ⟨hr, ?_⟩
    have : r.id ≠ e.id := fun h => hne (h ▸ heid)
    simpa using this
  · intro skip limit es hes r hr
    have hes' : ((queryDesc (db.rows.filter (fun r => r.id != e.id))).drop
        skip.toNat).take limit.toNat = es := Except.ok.inj hes
    rw [← hes'] at hr
    have hr3 : r ∈ db.rows.filter (fun r => r.id != e.id) :=
      (queryDesc_perm _).mem_iff.mp
        (((List.take_sublist _ _).trans (List.drop_sublist _ _)).subset hr)
    have hne : (r.id != e.id) = true := (List.mem_filter.mp hr3).2
    have : r.id ≠ e.id := by simpa using hne
    intro hcontra
    apply this
    omega

theorem delete_found_removes_witness :
    (delete_data_entry 1 true
        { rows := [mkRow 1 "a" 0], nextId := 2, now := 1 }).1 =
      Except.ok ("데이터(ID: " ++ toString (1 : Int) ++
        ")가 성공적으로 삭제되었습니다.") :=
  (delete_found_removes { rows := [mkRow 1 "a" 0], nextId := 2, now := 1 } 1
    ⟨mkRow 1 "a" 0, by simp, by simp [mkRow]⟩).1

/-- C8: in every reachable database state, every stored row has a
non-null `content` and a positive (hence non-null) `id`, and this
invariant is preserved by the create, list and delete handlers. -/
theorem reachable_rows_nonnull (db : DBState) (hr : Reachable db) :
    (∀ r ∈ db.rows, r.content.isSome ∧ 1 ≤ r.id) ∧
    (∀ item ok, ∀ r ∈ (create_data_entry item ok db).2.rows,
      r.content.isSome ∧ 1 ≤ r.id) ∧
    (∀ skip limit, ∀ r ∈ (read_data_entries db skip limit).2.rows,
      r.content.isSome ∧ 1 ≤ r.id) ∧
    (∀ i ok, ∀ r ∈ (delete_data_entry i ok db).2.rows,
      r.content.isSome ∧ 1 ≤ r.id) := by
  have main : ∀ d : DBState, Reachable d →
      ∀ r ∈ d.rows, r.content.isSome ∧ 1 ≤ r.id := by
    intro d hd r hrd
    obtain ⟨-, h2, -⟩ := reachable_WF hd
    obtain ⟨a, -, c, -⟩ := h2 r hrd
    exact ⟨c, a⟩
  exact ⟨main db hr,
    fun item ok => main _ (Reachable.create db item ok hr),
    fun skip limit => main _ (Reachable.list db skip limit hr),
    fun i ok => main _ (Reachable.delete db i ok hr)⟩

theorem reachable_rows_nonnull_witness :
    (mkRow 1 "hello" 0).content.isSome ∧ 1 ≤ (mkRow 1 "hello" 0).id :=
  (reachable_rows_nonnull _
      (Reachable.create { rows := [], nextId := 1, now := 0 }
        { content := "hello" } true (Reachable.init 0))).1
    (mkRow 1 "hello" 0) (by simp [create_data_entry, mkRow])

theorem list_ordered_desc_witness :
    ∃ es, (read_data_entries (create_data_entry { content := "b" } true
        (create_data_entry { content := "a" } true
          { rows := [], nextId := 1, now := 0 }).2).2).1 = Except.ok es ∧
      es.head? = some (mkRow 2 "b" 1) ∧ es[1]? = some (mkRow 1 "a" 0) :=
  (list_ordered_desc { rows := [], nextId := 1, now := 0 } 0 100 "a" "b"
    (by decide)).2

theorem list_pagination_witness :
    (read_data_entries (create_data_entry { content := "c" } true
        (create_data_entry { content := "b" } true
          (create_data_entry { content := "a" } true
            { rows := [], nextId := 1, now := 0 }).2).2).2 1 1).1 =
      Except.ok [mkRow 2 "b" 1] :=
  (list_pagination { rows := [], nextId := 1, now := 0 } 0 100 "a" "b" "c"
    (by decide) (by decide) (by decide)).2.2.2

theorem create_list_roundtrip_witness :
    ∃ es r, (read_data_entries (create_data_entry { content := "hello" } true
        { rows := [], nextId := 1, now := 0 }).2).1 = Except.ok es ∧
      es.head? = some r ∧ r.content = some "hello" ∧ 1 ≤ r.id ∧
      0 ≤ r.created_at :=
  (create_list_roundtrip { rows := [], nextId := 1, now := 0 } "hello"
    (by decide)).2
